import Mathlib

/-!
Verification development for the medical-agent platform core
(decision agent, token-bucket rate limiter, tiered cache, batch entry point).

The JavaScript source is shallowly embedded: JS numbers are modelled as
exact rationals (`ℚ`) or integers (`ℤ`), timestamps (`Date.now()`) are
explicit integer millisecond parameters, JS `Map` is an insertion-ordered
association list, and the regular expressions of `decision.js` are embedded
by a small executable matcher covering exactly the constructs those
patterns use (literals, `.`, character classes, `\d`, `\s`, `[^\s]`,
`?`, `*`, `+`, `{n}`, `{n,}`, alternation, and the surrounding `\b`
word boundaries), with JS backtracking order (leftmost start, alternatives
left to right, greedy quantifiers).
-/

/- The arithmetic of `Rat` (`add`, `mul`, `inv`, `ofScientific`) is marked
irreducible in the library, which blocks `decide`-style evaluation of the
embedded score arithmetic; restore the default transparency for this
development, which changes nothing about their meaning. -/
attribute [local semireducible] Rat.add Rat.mul Rat.inv Rat.ofScientific

/-! ## Regular-expression embedding -/

/-- JS `\w` (word character, ASCII): letters, digits, underscore. -/
def isWordChar (c : Char) : Bool :=
  ('a' ≤ c && c ≤ 'z') || ('A' ≤ c && c ≤ 'Z') || ('0' ≤ c && c ≤ '9') || c = '_'

/-- JS `\s` (whitespace), restricted to the characters that can occur in
the queries this development evaluates (ASCII whitespace and NBSP). -/
def isSpaceChar (c : Char) : Bool :=
  c = ' ' || c = '\t' || c = '\n' || c = '\r' ||
  c = Char.ofNat 11 || c = Char.ofNat 12 || c = Char.ofNat 0xA0

/-- Single-character classes appearing in the source patterns. -/
inductive Cls where
  | digit
  | space
  | nonspace
  | anyc
  | chars (cs : List Char)
deriving DecidableEq

/-- Does character `c` match class `cl`?  Comparison of literal characters is
case-insensitive, mirroring the `/i` flag carried by every pattern of
`decision.js` that contains letters. -/
def clsMatch (cl : Cls) (c : Char) : Bool :=
  match cl with
  | .digit => '0' ≤ c && c ≤ '9'
  | .space => isSpaceChar c
  | .nonspace => !isSpaceChar c
  | .anyc => !(c = '\n' || c = '\r' || c = Char.ofNat 0x2028 || c = Char.ofNat 0x2029)
  | .chars cs => cs.any fun p => p.toLower = c.toLower

/-- One token of a regex alternative: a class with a quantifier. -/
inductive Tok where
  | one (c : Cls)
  | many0 (c : Cls)
  | many1 (c : Cls)
  | rep (c : Cls) (n : Nat)
  | repAtLeast (c : Cls) (n : Nat)
  | opt (c : Cls)
deriving DecidableEq

/-- A pattern `/\b(a1|a2|...)\b/` is the list of its alternatives, each an
implicit concatenation of tokens; the enclosing word boundaries are part of
the matching functions below. -/
abbrev Pattern := List (List Tok)

/-- Literal string as a token list (each character a one-element class). -/
def lits (s : String) : List Tok :=
  s.toList.map fun c => Tok.one (Cls.chars [c])

/-- Length of the maximal prefix run of characters matching `cl`. -/
def runLen (cl : Cls) : List Char → Nat
  | [] => 0
  | c :: rest => if clsMatch cl c then runLen cl rest + 1 else 0

/-- Candidate remainders after matching one token, in JS backtracking order
(greedy: maximal consumption first). -/
def tokCands : Tok → List Char → List (List Char)
  | .one cl, s =>
    match s with
    | [] => []
    | c :: rest => if clsMatch cl c then [rest] else []
  | .many0 cl, s =>
    (List.range (runLen cl s + 1)).reverse.map fun k => s.drop k
  | .many1 cl, s =>
    (List.range (runLen cl s)).reverse.map fun k => s.drop (k + 1)
  | .rep cl n, s => if n ≤ runLen cl s then [s.drop n] else []
  | .repAtLeast cl n, s =>
    if n ≤ runLen cl s then
      (List.range (runLen cl s + 1 - n)).reverse.map fun k => s.drop (k + n)
    else []
  | .opt cl, s =>
    (match s with
     | [] => []
     | c :: rest => if clsMatch cl c then [rest] else []) ++ [s]

/-- All remainders reachable by matching a token list against `s`,
in JS backtracking order. -/
def matchToks : List Tok → List Char → List (List Char)
  | [], s => [s]
  | t :: ts, s => (tokCands t s).flatMap fun s' => matchToks ts s'

/-- Is the character at index `i` of `s` a word character (out of range
counts as non-word)? -/
def wordAt (s : List Char) (i : Nat) : Bool :=
  match s.drop i with
  | [] => false
  | c :: _ => isWordChar c

/-- JS `\b` at position `p` of `s`: exactly one of the neighbouring
characters is a word character (the edges of the string are non-word). -/
def boundaryAt (s : List Char) (p : Nat) : Bool :=
  ((p != 0) && wordAt s (p - 1)) != wordAt s p

/-- First alternative (in order) that matches at start index `i` with a
word boundary at the end of the match; returns the matched length. -/
def altMatchLen (alts : Pattern) (s : List Char) (i : Nat) : Option Nat :=
  alts.findSome? fun alt =>
    ((matchToks alt (s.drop i)).find? fun rem =>
        boundaryAt s (s.length - rem.length)).map
      fun rem => s.length - i - rem.length

/-- Leftmost match of `/\b(alts)\b/` in `s`: start index and length. -/
def reFirst (pat : Pattern) (s : List Char) : Option (Nat × Nat) :=
  (List.range (s.length + 1)).findSome? fun i =>
    if boundaryAt s i then (altMatchLen pat s i).map fun l => (i, l) else none

/-- JS `pattern.test(s)`. -/
def reTest (pat : Pattern) (s : List Char) : Bool :=
  (reFirst pat s).isSome

/-- JS `q.match(pattern)` reduced to the matched text `match[0]`. -/
def reMatchStr (pat : Pattern) (q : String) : Option String :=
  (reFirst pat q.toList).map fun il => String.mk ((q.toList.drop il.1).take il.2)

/-! ## DecisionAgent (backend/src/agents/decision.js) -/

namespace DecisionAgent

/-- Pattern `/\b(NCT\d{8})\b/i`. -/
def nctPattern : Pattern :=
  [lits "NCT" ++ [Tok.rep Cls.digit 8]]

/-- Pattern `/\b(PMID:?\s*\d+|PMC\d+)\b/i`. -/
def pmidPattern : Pattern :=
  [lits "PMID" ++ [Tok.opt (Cls.chars [':']), Tok.many0 Cls.space, Tok.many1 Cls.digit],
   lits "PMC" ++ [Tok.many1 Cls.digit]]

/-- Pattern `/\b(10\.\d{4,}\/[^\s]+)\b/` (the DOI pattern; defined in the
source's pattern table but never consulted by `checkSpecificIdentifiers`). -/
def doiPattern : Pattern :=
  [lits "10." ++ [Tok.repAtLeast Cls.digit 4, Tok.one (Cls.chars ['/']), Tok.many1 Cls.nonspace]]

/-- Pattern `/\b(NDA\s*\d+|ANDA\s*\d+|BLA\s*\d+)\b/i` (defined in the
source's pattern table but never consulted by `checkSpecificIdentifiers`). -/
def fdaPattern : Pattern :=
  [lits "NDA" ++ [Tok.many0 Cls.space, Tok.many1 Cls.digit],
   lits "ANDA" ++ [Tok.many0 Cls.space, Tok.many1 Cls.digit],
   lits "BLA" ++ [Tok.many0 Cls.space, Tok.many1 Cls.digit]]

/-- One domain's configuration: its pattern list, source list and base
confidence, as in `this.patterns.domains`. -/
structure DomainConfig where
  patterns : List Pattern
  sources : List String
  confidence : ℚ
deriving DecidableEq

/-- `this.patterns.domains.clinicalTrial`.
`[I|II|III|1|2|3]` is a character class, so it denotes the character set
`{I, |, 1, 2, 3}`; `double.blind` uses `.` as a wildcard. -/
def clinicalTrialConfig : DomainConfig where
  patterns :=
    [[lits "clinical trial", lits "study protocol", lits "NCT" ++ [Tok.rep Cls.digit 8]],
     [lits "phase" ++ [Tok.many0 Cls.space, Tok.one (Cls.chars ['I', '|', '1', '2', '3'])],
      lits "recruitment", lits "enrollment"],
     [lits "randomized", lits "controlled", lits "placebo",
      lits "double" ++ [Tok.one Cls.anyc] ++ lits "blind"]]
  sources := ["clinicaltrials", "pubmed"]
  confidence := 0.85

/-- `this.patterns.domains.drugSafety`.
`FDA\s*(approval|warning|recall)` is flattened into three alternatives. -/
def drugSafetyConfig : DomainConfig where
  patterns :=
    [[lits "side effect", lits "adverse event", lits "safety", lits "toxicity"],
     [lits "FDA" ++ [Tok.many0 Cls.space] ++ lits "approval",
      lits "FDA" ++ [Tok.many0 Cls.space] ++ lits "warning",
      lits "FDA" ++ [Tok.many0 Cls.space] ++ lits "recall"],
     [lits "contraindication", lits "black box", lits "warning"]]
  sources := ["openfda", "pubmed"]
  confidence := 0.9

/-- `this.patterns.domains.drugInfo`. -/
def drugInfoConfig : DomainConfig where
  patterns :=
    [[lits "drug", lits "medication", lits "pharmaceutical", lits "therapeutic"],
     [lits "dosage", lits "administration", lits "indication", lits "mechanism"],
     [lits "prescription",
      lits "over" ++ [Tok.one Cls.anyc] ++ lits "the" ++ [Tok.one Cls.anyc] ++ lits "counter",
      lits "OTC"]]
  sources := ["openfda", "pubmed", "clinicaltrials"]
  confidence := 0.8

/-- `this.patterns.domains.literatureReview`. -/
def literatureReviewConfig : DomainConfig where
  patterns :=
    [[lits "meta" ++ [Tok.one Cls.anyc] ++ lits "analysis", lits "systematic review",
      lits "literature"],
     [lits "research", lits "study", lits "investigation", lits "analysis"],
     [lits "evidence", lits "findings", lits "results", lits "outcomes"]]
  sources := ["pubmed"]
  confidence := 0.75

/-- `this.patterns.domains` in `Object.entries` (insertion) order. -/
def domains : List (String × DomainConfig) :=
  [("clinicalTrial", clinicalTrialConfig),
   ("drugSafety", drugSafetyConfig),
   ("drugInfo", drugInfoConfig),
   ("literatureReview", literatureReviewConfig)]

/-- Result object of `checkSpecificIdentifiers`. -/
structure SpecificMatch where
  found : Bool
  identifier : String
  type : String
  sources : List String
deriving DecidableEq

/-- `checkSpecificIdentifiers(query)`: tests the `nct` pattern, then the
`pmid` pattern, on the raw query; the `doi` and `fda` patterns of the table
are never consulted, exactly as in the source. -/
def checkSpecificIdentifiers (query : String) : SpecificMatch :=
  match reMatchStr nctPattern query with
  | some m =>
    { found := true, identifier := m, type := "clinical_trial_lookup",
      sources := ["clinicaltrials", "pubmed"] }
  | none =>
    match reMatchStr pmidPattern query with
    | some m =>
      { found := true, identifier := m, type := "literature_lookup",
        sources := ["pubmed"] }
    | none => { found := false, identifier := "", type := "", sources := [] }

/-- `calculateDomainScore(query, patterns)`: lowercases the query
(`query.toLowerCase()`, modelled characterwise), adds 0.4 per matching
pattern, caps at 1.0. -/
def calculateDomainScore (query : String) (pats : List Pattern) : ℚ :=
  let queryLower := query.toList.map Char.toLower
  let score := pats.foldl (fun sc p => if reTest p queryLower then sc + 0.4 else sc) 0
  min score 1.0

/-- Result object of `classifyDomain`. -/
structure DomainMatch where
  domain : Option String
  sources : List String
  confidence : ℚ
deriving DecidableEq

/-- The body of the `forEach` callback in `classifyDomain`: keep the best
raw score seen so far (strict improvement only) together with the matching
domain's name, sources and `confidence × matchScore`. -/
def classifyStep (query : String) (acc : ℚ × Option (String × List String × ℚ))
    (dc : String × DomainConfig) : ℚ × Option (String × List String × ℚ) :=
  let matchScore := calculateDomainScore query dc.2.patterns
  if matchScore > acc.1 then
    (matchScore, some (dc.1, dc.2.sources, dc.2.confidence * matchScore))
  else acc

/-- `classifyDomain(query)`: folds over the domain table keeping the best
raw score (strict improvement, so the earliest domain wins ties), then
requires the best raw score to exceed 0.3. -/
def classifyDomain (query : String) : DomainMatch :=
  let best :=
    domains.foldl (classifyStep query)
      ((0 : ℚ), (none : Option (String × List String × ℚ)))
  match best with
  | (bestScore, some bm) =>
    if bestScore > 0.3 then
      { domain := some bm.1, sources := bm.2.1, confidence := bm.2.2 }
    else { domain := none, sources := [], confidence := 0 }
  | (_, none) => { domain := none, sources := [], confidence := 0 }

/-- The decision object returned by `decide` (the wall-clock
`processingTimeMs` field is elided from the model). -/
structure Decision where
  useDocuments : Bool
  useExternal : Bool
  documentQuery : String
  externalSources : List String
  intent : String
  confidence : ℚ
  reasoning : String
deriving DecidableEq

/-- `decide(query)`: specific-identifier short circuit, then domain
classification, then the general-medical fallback. -/
def decide (query : String) : Decision :=
  let specificMatch := checkSpecificIdentifiers query
  if specificMatch.found then
    { useDocuments := false, useExternal := true, documentQuery := "",
      externalSources := specificMatch.sources, intent := specificMatch.type,
      confidence := 0.95,
      reasoning := "Specific identifier detected: " ++ specificMatch.identifier }
  else
    let domainMatch := classifyDomain query
    match domainMatch.domain with
    | some d =>
      { useDocuments := false, useExternal := true, documentQuery := "",
        externalSources := domainMatch.sources, intent := d,
        confidence := domainMatch.confidence,
        reasoning := "Classified as " ++ d ++ " query" }
    | none =>
      { useDocuments := false, useExternal := true, documentQuery := "",
        externalSources := ["pubmed"], intent := "general_medical",
        confidence := 0.6,
        reasoning := "General medical query, defaulting to literature search" }

end DecisionAgent

/-! ## RateLimiter (backend/src/utils/rateLimiter.js)

Timestamps are integer milliseconds; `Date.now()` becomes an explicit
parameter at every operation.  JS floating-point arithmetic is modelled
exactly over `ℚ`. -/

structure RateLimiter where
  capacity : ℤ
  tokens : ℤ
  refillRate : ℚ
  lastRefill : ℤ
deriving DecidableEq

/-- The constructor: full bucket, last refill now. -/
def RateLimiter.init (capacity : ℤ) (refillRate : ℚ) (now : ℤ) : RateLimiter :=
  { capacity := capacity, tokens := capacity, refillRate := refillRate, lastRefill := now }

/-- `refill()`: adds `floor((timePassed / 1000) * (capacity / refillRate))`
tokens, clamps to capacity, advances the last-refill timestamp. -/
def RateLimiter.refill (rl : RateLimiter) (now : ℤ) : RateLimiter :=
  let timePassed : ℤ := now - rl.lastRefill
  let tokensToAdd : ℤ := ⌊((timePassed : ℚ) / 1000) * ((rl.capacity : ℚ) / rl.refillRate)⌋
  { rl with tokens := min rl.capacity (rl.tokens + tokensToAdd), lastRefill := now }

/-- `Math.ceil((1 / refillRate) * 1000)`: the fixed wait before the forced
decrement. -/
def RateLimiter.waitTime (rl : RateLimiter) : ℤ :=
  ⌈(1 / rl.refillRate) * 1000⌉

/-- `waitForSlot()`: refill at `now`; if a token is available decrement and
return immediately (second component `false`); otherwise the caller is
suspended until `later` (the `setTimeout` callback time, `later ≥ now +
waitTime`), where a refill and an unconditional decrement happen (second
component `true`). -/
def RateLimiter.waitForSlot (rl : RateLimiter) (now later : ℤ) : RateLimiter × Bool :=
  let r1 := rl.refill now
  if 1 ≤ r1.tokens then ({ r1 with tokens := r1.tokens - 1 }, false)
  else
    let r2 := r1.refill later
    ({ r2 with tokens := r2.tokens - 1 }, true)

/-- `getRemaining()`: refill, then report the token count. -/
def RateLimiter.getRemaining (rl : RateLimiter) (now : ℤ) : RateLimiter × ℤ :=
  let r := rl.refill now
  (r, r.tokens)

/-- One call against the limiter, with its wall-clock instants. -/
inductive RLOp where
  | acquire (now later : ℤ)
  | refillAt (now : ℤ)
  | remaining (now : ℤ)
deriving DecidableEq

/-- State transition of one call. -/
def RLOp.apply (rl : RateLimiter) : RLOp → RateLimiter
  | .acquire now later => (rl.waitForSlot now later).1
  | .refillAt now => rl.refill now
  | .remaining now => (rl.getRemaining now).1

/-- Run a sequence of calls. -/
def RateLimiter.exec (rl : RateLimiter) (ops : List RLOp) : RateLimiter :=
  ops.foldl (fun s op => op.apply s) rl

/-! ## CacheManager (backend/src/utils/cache.js)

The durable (Redis) tier is disabled (`redisClient` is `null`, i.e. no
`REDIS_URL`), so `get`/`set` take only the in-process branch, exactly the
code path the claims address.  A JS `Map` is an insertion-ordered
association list: `set` of an existing key updates it in place, `set` of a
new key appends, and `keys().next().value` is the head key. -/

/-- UTF-8 encoding of one code point (what `Buffer.from(input)` does per
character). -/
def charUtf8 (n : ℕ) : List ℕ :=
  if n < 0x80 then [n]
  else if n < 0x800 then [0xC0 + n / 64, 0x80 + n % 64]
  else if n < 0x10000 then [0xE0 + n / 4096, 0x80 + (n / 64) % 64, 0x80 + n % 64]
  else [0xF0 + n / 262144, 0x80 + (n / 4096) % 64, 0x80 + (n / 64) % 64, 0x80 + n % 64]

/-- The base64 alphabet. -/
def b64Char (n : ℕ) : Char :=
  "ABCDEFGHIJKLMNOPQRSTUVWXYZabcdefghijklmnopqrstuvwxyz0123456789+/".toList.getD n 'A'

/-- Standard base64 encoding of a byte list, with padding. -/
def base64 : List ℕ → List Char
  | [] => []
  | [a] => [b64Char (a / 4), b64Char (a % 4 * 16), '=', '=']
  | [a, b] => [b64Char (a / 4), b64Char (a % 4 * 16 + b / 16), b64Char (b % 16 * 4), '=']
  | a :: b :: c :: rest =>
    b64Char (a / 4) :: b64Char (a % 4 * 16 + b / 16) ::
    b64Char (b % 16 * 4 + c / 64) :: b64Char (c % 64) :: base64 rest

/-- In-process cache entry: `{ data, expiry }` with an absolute expiry
timestamp in milliseconds. -/
structure MemEntry (α : Type) where
  data : α
  expiry : ℤ
deriving DecidableEq

/-- JS `Map.prototype.get`. -/
def mapGet {α : Type} (k : String) : List (String × MemEntry α) → Option (MemEntry α)
  | [] => none
  | (k', v) :: rest => if k' = k then some v else mapGet k rest

/-- JS `Map.prototype.set`: update in place if present, else append. -/
def mapSet {α : Type} (k : String) (v : MemEntry α) :
    List (String × MemEntry α) → List (String × MemEntry α)
  | [] => [(k, v)]
  | (k', v') :: rest => if k' = k then (k, v) :: rest else (k', v') :: mapSet k v rest

/-- JS `Map.prototype.delete`. -/
def mapDelete {α : Type} (k : String) :
    List (String × MemEntry α) → List (String × MemEntry α)
  | [] => []
  | (k', v') :: rest => if k' = k then rest else (k', v') :: mapDelete k rest

structure CacheManager (α : Type) where
  memoryCache : List (String × MemEntry α)
  maxMemoryItems : ℕ
  defaultTTL : ℤ
deriving DecidableEq

/-- The constructor (with the durable tier absent): empty map, capacity
1000, default TTL one hour. -/
def CacheManager.initState (α : Type) : CacheManager α :=
  { memoryCache := [], maxMemoryItems := 1000, defaultTTL := 3600 }

/-- `generateKey(input)`: namespace prefix plus the first 32 characters of
the base64 encoding of the UTF-8 bytes of the input. -/
def CacheManager.generateKey (input : String) : String :=
  "medical_agent:" ++ String.mk ((base64 (input.toList.flatMap fun c => charUtf8 c.toNat)).take 32)

/-- `get(key)` with the durable tier disabled: look up the derived key in
the in-process map and return the value only while `now` is strictly
before its expiry. -/
def CacheManager.get {α : Type} (cm : CacheManager α) (key : String) (now : ℤ) : Option α :=
  let cacheKey := CacheManager.generateKey key
  match mapGet cacheKey cm.memoryCache with
  | some e => if now < e.expiry then some e.data else none
  | none => none

/-- `setMemoryCache(key, value, ttl)`: if the map is full, evict the key
yielded first by iteration (`keys().next().value`), then insert with
absolute expiry `now + ttl * 1000`. -/
def CacheManager.setMemoryCache {α : Type} (cm : CacheManager α) (key : String) (value : α)
    (ttl now : ℤ) : CacheManager α :=
  let pruned :=
    if cm.maxMemoryItems ≤ cm.memoryCache.length then
      match cm.memoryCache with
      | [] => cm.memoryCache
      | (oldestKey, _) :: _ => mapDelete oldestKey cm.memoryCache
    else cm.memoryCache
  { cm with memoryCache := mapSet key { data := value, expiry := now + ttl * 1000 } pruned }

/-- `set(key, value, ttl)` with the durable tier disabled: derive the key
and write the in-process tier. -/
def CacheManager.set {α : Type} (cm : CacheManager α) (key : String) (value : α)
    (ttl now : ℤ) : CacheManager α :=
  cm.setMemoryCache (CacheManager.generateKey key) value ttl now

/-- Run a sequence of `set` calls (key, value, ttl, now). -/
def CacheManager.execSets {α : Type} (cm : CacheManager α)
    (ops : List (String × α × ℤ × ℤ)) : CacheManager α :=
  ops.foldl (fun s op => s.set op.1 op.2.1 op.2.2.1 op.2.2.2) cm

/-! ## Batch entry point (backend/src/routes/medical.js with
backend/src/utils/validators.js)

`router.post('/batch', validateQuery, handler)` runs the `validateQuery`
middleware first; it inspects `req.body.query` (not `queries`).  The
handler then validates `req.body.queries` and hands a valid list to
`orchestrator.processBatch`. -/

/-- The `query` field of the request body as the middleware sees it. -/
inductive QueryField where
  | absent
  | nonStringTruthy
  | str (s : String)
deriving DecidableEq

/-- The `queries` field of the request body as the batch handler sees it. -/
inductive QueriesField where
  | absent
  | notArray
  | arr (qs : List String)
deriving DecidableEq

structure BatchBody where
  query : QueryField
  queries : QueriesField
deriving DecidableEq

/-- Outcome of the `/batch` route up to the hand-off to `processBatch`. -/
inductive BatchResponse where
  | badRequest (msg : String)
  | handedToProcessBatch (qs : List String)
deriving DecidableEq

/-- `validateQuery(req, res, next)`: `!query` (absent or empty string)
rejects, non-strings reject, length bounds 3..1000 reject; otherwise the
request proceeds to the route handler. -/
def validateQuery (q : QueryField) : Option String :=
  match q with
  | .absent => some "Query is required"
  | .nonStringTruthy => some "Query must be a string"
  | .str s =>
    if s.length = 0 then some "Query is required"
    else if s.length < 3 then some "Query must be at least 3 characters"
    else if s.length > 1000 then some "Query too long (max 1000 characters)"
    else none

/-- The `/batch` route: middleware, then the handler's own checks on
`queries`, then the hand-off. -/
def batchEndpoint (body : BatchBody) : BatchResponse :=
  match validateQuery body.query with
  | some msg => .badRequest msg
  | none =>
    match body.queries with
    | .absent => .badRequest "Queries array is required"
    | .notArray => .badRequest "Queries array is required"
    | .arr qs =>
      if qs.length = 0 then .badRequest "Queries array is required"
      else if qs.length > 100 then .badRequest "Maximum 100 queries per batch"
      else .handedToProcessBatch qs

/-! ## Selection rules stated from the specification's words

These definitions follow the spec text, not the source; they are compared
against `classifyDomain` to settle the claims about domain selection. -/

namespace DecisionAgent

/-- Raw score of one domain-table entry on a query. -/
def rawScore (query : String) (dc : String × DomainConfig) : ℚ :=
  calculateDomainScore query dc.2.patterns

/-- Combined score `raw_score × base_confidence` of one entry. -/
def combinedScore (query : String) (dc : String × DomainConfig) : ℚ :=
  dc.2.confidence * rawScore query dc

/-- The selection rule exactly as the claim states it: among the domains
whose raw score exceeds 0.3, the one with the highest
`raw_score × base_confidence` wins, the earlier one on ties. -/
def specClaimSelect (query : String) : Option String :=
  let eligible := domains.filter fun dc => rawScore query dc > 0.3
  (eligible.foldl
      (fun acc dc =>
        match acc with
        | none => some dc
        | some best => if combinedScore query dc > combinedScore query best then some dc else acc)
      none).map
    fun dc => dc.1

/-- Running maximum of the raw scores of the entries of `l`, seeded with `b`. -/
def maxFrom (query : String) (b : ℚ) (l : List (String × DomainConfig)) : ℚ :=
  l.foldl (fun x dc => max x (rawScore query dc)) b

/-- Maximum raw score over the domain table (at least 0). -/
def maxRawScore (query : String) : ℚ :=
  maxFrom query 0 domains

/-- First entry of the table whose raw score equals `m`. -/
def firstWithMax (query : String) (m : ℚ) :
    List (String × DomainConfig) → Option (String × DomainConfig)
  | [] => none
  | dc :: rest => if rawScore query dc = m then some dc else firstWithMax query m rest

/-- The best-match triple the fold stores for an entry. -/
def mkBest (query : String) (dc : String × DomainConfig) : String × List String × ℚ :=
  (dc.1, dc.2.sources, dc.2.confidence * rawScore query dc)

/-- The amended selection rule: the first domain (in table order) whose
raw score attains the maximum raw score wins, provided that maximum
exceeds 0.3; its reported confidence is `base_confidence × raw_score`. -/
def amendedSelect (query : String) : DomainMatch :=
  if maxRawScore query > 0.3 then
    match firstWithMax query (maxRawScore query) domains with
    | some dc =>
      { domain := some dc.1, sources := dc.2.sources,
        confidence := dc.2.confidence * rawScore query dc }
    | none => { domain := none, sources := [], confidence := 0 }
  else { domain := none, sources := [], confidence := 0 }

end DecisionAgent

/-! ## Helper lemmas -/

namespace DecisionAgent

theorem calculateDomainScore_nonneg (q : String) (pats : List Pattern) :
    0 ≤ calculateDomainScore q pats := by
  unfold calculateDomainScore
  have h : ∀ (l : List Pattern) (a : ℚ), 0 ≤ a →
      0 ≤ l.foldl (fun sc p => if reTest p (q.toList.map Char.toLower) then sc + 0.4 else sc)
        a := by
    intro l
    induction l with
    | nil => intro a ha; simpa using ha
    | cons p ps ih =>
      intro a ha
      simp only [List.foldl_cons]
      apply ih
      split <;> linarith
  exact le_min (h _ 0 le_rfl) (by norm_num)

theorem rawScore_nonneg (q : String) (dc : String × DomainConfig) :
    0 ≤ rawScore q dc :=
  calculateDomainScore_nonneg q dc.2.patterns

theorem maxFrom_nil (q : String) (b : ℚ) : maxFrom q b [] = b := rfl

theorem maxFrom_cons (q : String) (b : ℚ) (d : String × DomainConfig)
    (ds : List (String × DomainConfig)) :
    maxFrom q b (d :: ds) = maxFrom q (max b (rawScore q d)) ds := rfl

theorem firstWithMax_cons (q : String) (m : ℚ) (d : String × DomainConfig)
    (ds : List (String × DomainConfig)) :
    firstWithMax q m (d :: ds) = if rawScore q d = m then some d else firstWithMax q m ds := rfl

theorem maxFrom_ge (q : String) (l : List (String × DomainConfig)) :
    ∀ b : ℚ, b ≤ maxFrom q b l := by
  induction l with
  | nil => intro b; simp [maxFrom]
  | cons d ds ih =>
    intro b
    rw [maxFrom_cons]
    exact le_trans (le_max_left _ _) (ih (max b (rawScore q d)))

theorem maxFrom_le (q : String) (l : List (String × DomainConfig)) :
    ∀ (b c : ℚ), b ≤ c → (∀ dc ∈ l, rawScore q dc ≤ c) → maxFrom q b l ≤ c := by
  induction l with
  | nil => intro b c hb _; simpa [maxFrom] using hb
  | cons d ds ih =>
    intro b c hb hall
    rw [maxFrom_cons]
    apply ih
    · exact max_le hb (hall d (by simp))
    · intro dc hdc; exact hall dc (by simp [hdc])

theorem firstWithMax_isSome (q : String) (l : List (String × DomainConfig)) :
    ∀ b : ℚ, maxFrom q b l > b → (firstWithMax q (maxFrom q b l) l).isSome := by
  induction l with
  | nil => intro b hb; rw [maxFrom_nil] at hb; exact absurd hb (lt_irrefl b)
  | cons d ds ih =>
    intro b hb
    rw [maxFrom_cons] at hb ⊢
    rw [firstWithMax_cons]
    by_cases hsM : rawScore q d = maxFrom q (max b (rawScore q d)) ds
    · rw [if_pos hsM]; rfl
    · rw [if_neg hsM]
      apply ih
      rcases (maxFrom_ge q ds (max b (rawScore q d))).lt_or_eq with h | h
      · exact h
      · exfalso
        rcases max_choice b (rawScore q d) with hm | hm
        · rw [hm] at h hb
          rw [← h] at hb
          exact lt_irrefl b hb
        · rw [hm] at h hsM
          exact hsM h

theorem foldBest_spec (q : String) (l : List (String × DomainConfig)) :
    ∀ (b : ℚ) (m : Option (String × List String × ℚ)),
    l.foldl (classifyStep q) (b, m) =
      (maxFrom q b l,
       if maxFrom q b l > b
       then (firstWithMax q (maxFrom q b l) l).map (mkBest q)
       else m) := by
  induction l with
  | nil =>
    intro b m
    rw [List.foldl_nil, maxFrom_nil, if_neg (lt_irrefl b)]
  | cons d ds ih =>
    intro b m
    have hstep : classifyStep q (b, m) d =
        if rawScore q d > b then (rawScore q d, some (mkBest q d)) else (b, m) := rfl
    rw [List.foldl_cons, hstep, maxFrom_cons, firstWithMax_cons]
    by_cases hsb : rawScore q d > b
    · rw [if_pos hsb, ih (rawScore q d) (some (mkBest q d)),
        max_eq_right (le_of_lt hsb)]
      rcases (maxFrom_ge q ds (rawScore q d)).lt_or_eq with h | h
      · rw [if_pos h, if_pos (lt_trans hsb h), if_neg (ne_of_lt h)]
      · rw [← h, if_neg (lt_irrefl (rawScore q d)), if_pos hsb, if_pos rfl,
          Option.map_some']
    · rw [if_neg hsb, ih b m, max_eq_left (le_of_not_lt hsb)]
      by_cases hM : maxFrom q b ds > b
      · have hne : ¬ rawScore q d = maxFrom q b ds := by
          intro hc
          exact hsb (by rw [hc]; exact hM)
        rw [if_pos hM, if_pos hM, if_neg hne]
      · rw [if_neg hM, if_neg hM]

theorem classifyDomain_eq_amendedSelect (q : String) :
    classifyDomain q = amendedSelect q := by
  unfold classifyDomain amendedSelect maxRawScore
  rw [foldBest_spec q domains 0 none]
  by_cases h3 : maxFrom q 0 domains > 0.3
  · have h0 : maxFrom q 0 domains > 0 := lt_trans (by norm_num) h3
    obtain ⟨dc, hdc⟩ := Option.isSome_iff_exists.mp (firstWithMax_isSome q domains 0 h0)
    rw [if_pos h0, hdc, Option.map_some']
    dsimp only [mkBest]
  · by_cases h0 : maxFrom q 0 domains > 0
    · rw [if_pos h0]
      cases hfw : (firstWithMax q (maxFrom q 0 domains) domains).map (mkBest q) with
      | none =>
        dsimp only
        rw [if_neg h3]
      | some bm =>
        dsimp only
        rw [if_neg h3, if_neg h3]
    · rw [if_neg h0]
      dsimp only
      rw [if_neg h3]

end DecisionAgent

theorem RateLimiter.refill_tokens_le (rl : RateLimiter) (now : ℤ) :
    (rl.refill now).tokens ≤ rl.capacity :=
  min_le_left _ _

theorem RateLimiter.refill_capacity (rl : RateLimiter) (now : ℤ) :
    (rl.refill now).capacity = rl.capacity := rfl

theorem RateLimiter.waitForSlot_capacity (rl : RateLimiter) (now later : ℤ) :
    ((rl.waitForSlot now later).1).capacity = rl.capacity := by
  unfold RateLimiter.waitForSlot
  dsimp only
  split <;> rfl

theorem RateLimiter.waitForSlot_tokens_le (rl : RateLimiter) (now later : ℤ) :
    ((rl.waitForSlot now later).1).tokens ≤ rl.capacity := by
  unfold RateLimiter.waitForSlot
  dsimp only
  split
  · have h1 := RateLimiter.refill_tokens_le rl now
    dsimp only
    omega
  · have h1 := RateLimiter.refill_tokens_le (rl.refill now) later
    have h2 : (rl.refill now).capacity = rl.capacity := rfl
    dsimp only
    omega

theorem RLOp.apply_preserves (rl : RateLimiter) (op : RLOp) :
    (op.apply rl).tokens ≤ (op.apply rl).capacity ∧ (op.apply rl).capacity = rl.capacity := by
  cases op with
  | acquire now later =>
    have hc := RateLimiter.waitForSlot_capacity rl now later
    have ht := RateLimiter.waitForSlot_tokens_le rl now later
    exact ⟨by rw [show (RLOp.apply rl (RLOp.acquire now later)) = (rl.waitForSlot now later).1 from rfl, hc]; exact ht, hc⟩
  | refillAt now =>
    exact ⟨RateLimiter.refill_tokens_le rl now, rfl⟩
  | remaining now =>
    exact ⟨RateLimiter.refill_tokens_le rl now, rfl⟩

theorem RateLimiter.exec_preserves (ops : List RLOp) :
    ∀ rl : RateLimiter, rl.tokens ≤ rl.capacity →
    (rl.exec ops).tokens ≤ (rl.exec ops).capacity ∧ (rl.exec ops).capacity = rl.capacity := by
  induction ops with
  | nil => intro rl h; exact ⟨h, rfl⟩
  | cons op rest ih =>
    intro rl _
    have hstep := RLOp.apply_preserves rl op
    have hrest := ih (op.apply rl) (hstep.2 ▸ hstep.1)
    exact ⟨hrest.1, hrest.2.trans hstep.2⟩

theorem mapGet_mapSet_self {α : Type} (k : String) (v : MemEntry α) :
    ∀ m : List (String × MemEntry α), mapGet k (mapSet k v m) = some v := by
  intro m
  induction m with
  | nil => simp [mapGet, mapSet]
  | cons p rest ih =>
    obtain ⟨k', v'⟩ := p
    by_cases hk : k' = k
    · simp [mapSet, mapGet, hk]
    · simp only [mapSet, mapGet, if_neg hk]
      exact ih

theorem mapSet_length_le {α : Type} (k : String) (v : MemEntry α) :
    ∀ m : List (String × MemEntry α), (mapSet k v m).length ≤ m.length + 1 := by
  intro m
  induction m with
  | nil => simp [mapSet]
  | cons p rest ih =>
    obtain ⟨k', v'⟩ := p
    by_cases hk : k' = k
    · simp [mapSet, hk]
    · simp only [mapSet, if_neg hk, List.length_cons]
      omega

theorem CacheManager.set_maxMemoryItems {α : Type} (cm : CacheManager α) (k : String)
    (v : α) (ttl t : ℤ) : (cm.set k v ttl t).maxMemoryItems = cm.maxMemoryItems := rfl

theorem CacheManager.set_length_le {α : Type} (cm : CacheManager α) (k : String)
    (v : α) (ttl t : ℤ) (hmax : 1 ≤ cm.maxMemoryItems)
    (hlen : cm.memoryCache.length ≤ cm.maxMemoryItems) :
    (cm.set k v ttl t).memoryCache.length ≤ cm.maxMemoryItems := by
  unfold CacheManager.set CacheManager.setMemoryCache
  dsimp only
  by_cases hfull : cm.maxMemoryItems ≤ cm.memoryCache.length
  · rw [if_pos hfull]
    cases hmc : cm.memoryCache with
    | nil =>
      rw [hmc] at hfull
      simp at hfull
      omega
    | cons hd tl =>
      obtain ⟨k0, e0⟩ := hd
      dsimp only
      have hdel : mapDelete k0 ((k0, e0) :: tl) = tl := by simp [mapDelete]
      rw [hdel]
      have h1 := mapSet_length_le (CacheManager.generateKey k)
        (⟨v, t + ttl * 1000⟩ : MemEntry α) tl
      have h2 : cm.memoryCache.length = tl.length + 1 := by rw [hmc]; rfl
      omega
  · rw [if_neg hfull]
    have h1 := mapSet_length_le (CacheManager.generateKey k)
      (⟨v, t + ttl * 1000⟩ : MemEntry α) cm.memoryCache
    omega

theorem CacheManager.execSets_length {α : Type} (ops : List (String × α × ℤ × ℤ)) :
    ∀ cm : CacheManager α, 1 ≤ cm.maxMemoryItems →
    cm.memoryCache.length ≤ cm.maxMemoryItems →
    (cm.execSets ops).memoryCache.length ≤ cm.maxMemoryItems ∧
    (cm.execSets ops).maxMemoryItems = cm.maxMemoryItems := by
  induction ops with
  | nil => intro cm _ hlen; exact ⟨hlen, rfl⟩
  | cons op rest ih =>
    intro cm hmax hlen
    have hcons : cm.execSets (op :: rest) =
        (cm.set op.1 op.2.1 op.2.2.1 op.2.2.2).execSets rest := rfl
    have hstep := CacheManager.set_length_le cm op.1 op.2.1 op.2.2.1 op.2.2.2 hmax hlen
    have hm : (cm.set op.1 op.2.1 op.2.2.1 op.2.2.2).maxMemoryItems = cm.maxMemoryItems := rfl
    have hrest := ih (cm.set op.1 op.2.1 op.2.2.1 op.2.2.2) (by omega) (by omega)
    rw [hcons]
    exact ⟨by omega, hrest.2.trans hm⟩

/-! ## Claim theorems -/

/-- Evaluation rule for `refill` at a concrete state. -/
theorem RateLimiter.refill_eval (cap tok : ℤ) (rate : ℚ) (last now k v : ℤ)
    (h : ⌊(((now - last : ℤ) : ℚ) / 1000) * ((cap : ℚ) / rate)⌋ = k)
    (hv : min cap (tok + k) = v) :
    (RateLimiter.mk cap tok rate last).refill now = ⟨cap, v, rate, now⟩ := by
  unfold RateLimiter.refill
  dsimp only
  rw [h, hv]

/-- Evaluation rule for the immediate (non-suspending) path of `waitForSlot`. -/
theorem RateLimiter.waitForSlot_eval_fast (rl r1 : RateLimiter) (now later : ℤ)
    (h1 : rl.refill now = r1) (h2 : 1 ≤ r1.tokens) :
    rl.waitForSlot now later = ({ r1 with tokens := r1.tokens - 1 }, false) := by
  unfold RateLimiter.waitForSlot
  rw [h1, if_pos h2]

/-- Evaluation rule for the suspending path of `waitForSlot`. -/
theorem RateLimiter.waitForSlot_eval_slow (rl r1 r2 : RateLimiter) (now later : ℤ)
    (h1 : rl.refill now = r1) (h2 : ¬ 1 ≤ r1.tokens) (h3 : r1.refill later = r2) :
    rl.waitForSlot now later = ({ r2 with tokens := r2.tokens - 1 }, true) := by
  unfold RateLimiter.waitForSlot
  rw [h1, if_neg h2, h3]

/-- C1 counterexample: with capacity 1 and refill period 60, an immediate
second `waitForSlot` suspends for the prescribed `waitTime = 17` ms, the
refill at resume time adds no token, and the forced decrement leaves the
observed token count at `-1`, below zero — refuting the claim that the
count always stays in `[0, capacity]` and that `acquire` never returns
while the count is below zero. -/
theorem rateLimiter_c1_counterexample :
    (RateLimiter.init 1 60 0).waitTime = 17 ∧
    ((RateLimiter.init 1 60 0).waitForSlot 0 0).2 = false ∧
    (((RateLimiter.init 1 60 0).waitForSlot 0 0).1.waitForSlot 0 17).2 = true ∧
    ((((RateLimiter.init 1 60 0).waitForSlot 0 0).1.waitForSlot 0 17).1.getRemaining 17).2
      = -1 := by
  have h0 : RateLimiter.init 1 60 0 = RateLimiter.mk 1 1 60 0 := rfl
  have w1 : (RateLimiter.mk 1 1 60 0).waitForSlot 0 0 = (⟨1, 0, 60, 0⟩, false) :=
    RateLimiter.waitForSlot_eval_fast _ ⟨1, 1, 60, 0⟩ 0 0
      (RateLimiter.refill_eval 1 1 60 0 0 0 1 (by norm_num) (by omega)) (by norm_num)
  have w2 : (RateLimiter.mk 1 0 60 0).waitForSlot 0 17 = (⟨1, -1, 60, 17⟩, true) :=
    RateLimiter.waitForSlot_eval_slow _ ⟨1, 0, 60, 0⟩ ⟨1, 0, 60, 17⟩ 0 17
      (RateLimiter.refill_eval 1 0 60 0 0 0 0 (by norm_num) (by omega)) (by norm_num)
      (RateLimiter.refill_eval 1 0 60 0 17 0 0
        (by rw [Int.floor_eq_iff]; norm_num) (by omega))
  have w3 : (RateLimiter.mk 1 (-1) 60 17).refill 17 = ⟨1, -1, 60, 17⟩ :=
    RateLimiter.refill_eval 1 (-1) 60 17 17 0 (-1) (by norm_num) (by omega)
  refine ⟨?_, ?_, ?_, ?_⟩
  · show (⌈(1 / (60 : ℚ)) * 1000⌉ : ℤ) = 17
    rw [Int.ceil_eq_iff]; norm_num
  · rw [h0, w1]
  · rw [h0, w1]
    dsimp only
    rw [w2]
  · rw [h0, w1]
    dsimp only
    rw [w2]
    dsimp only
    unfold RateLimiter.getRemaining
    rw [w3]

/-- C1 (corrected): over any sequence of acquire/refill/remaining calls the
token count never exceeds the capacity, and a non-suspending `waitForSlot`
never returns with a negative count; the forced decrement after a
suspension, however, can drive the count below zero, so the lower bound 0
of the claim does not hold. -/
theorem rateLimiter_c1_amended (rl : RateLimiter) (ops : List RLOp)
    (h : rl.tokens ≤ rl.capacity) (now later : ℤ) :
    (rl.exec ops).tokens ≤ rl.capacity ∧
    ((rl.waitForSlot now later).2 = false → 0 ≤ ((rl.waitForSlot now later).1).tokens) := by
  constructor
  · have hp := RateLimiter.exec_preserves ops rl h
    omega
  · unfold RateLimiter.waitForSlot
    dsimp only
    split
    · intro _
      rename_i htok
      dsimp only
      omega
    · intro hfalse
      exact absurd hfalse (by simp)

/-- Witness for `rateLimiter_c1_amended` at a concrete limiter and trace. -/
theorem rateLimiter_c1_amended_witness :
    (RateLimiter.init 2 1 0).tokens ≤ (RateLimiter.init 2 1 0).capacity ∧
    (((RateLimiter.init 2 1 0).exec [RLOp.acquire 0 0, RLOp.remaining 0]).tokens ≤
        (RateLimiter.init 2 1 0).capacity ∧
      (((RateLimiter.init 2 1 0).waitForSlot 0 0).2 = false →
        0 ≤ (((RateLimiter.init 2 1 0).waitForSlot 0 0).1).tokens)) :=
  ⟨by norm_num [RateLimiter.init], rateLimiter_c1_amended (RateLimiter.init 2 1 0)
    [RLOp.acquire 0 0, RLOp.remaining 0] (by norm_num [RateLimiter.init]) 0 0⟩

/-- C10 (confirmed): when the elapsed-time credit
`floor((elapsed/1000) * (capacity/refillRate))` is zero, `refill` leaves
the token count unchanged yet still advances `lastRefill` to `now`,
discarding the fractional credit; consequently two refills over a split
interval can add strictly fewer tokens than one refill over the whole
interval (capacity 1, refill period 1 s: refills at 500 ms and 1000 ms add
nothing, one refill at 1000 ms adds a token). -/
theorem rateLimiter_c10_refill_discards_fraction (rl : RateLimiter) (now : ℤ)
    (h1 : rl.tokens ≤ rl.capacity)
    (h2 : ⌊(((now - rl.lastRefill : ℤ) : ℚ) / 1000) * ((rl.capacity : ℚ) / rl.refillRate)⌋
      = 0) :
    ((rl.refill now).tokens = rl.tokens ∧ (rl.refill now).lastRefill = now) ∧
    ((((⟨1, 0, 1, 0⟩ : RateLimiter).refill 500).refill 1000).tokens <
      ((⟨1, 0, 1, 0⟩ : RateLimiter).refill 1000).tokens) := by
  constructor
  · unfold RateLimiter.refill
    dsimp only
    rw [h2, add_zero, min_eq_right h1]
    exact ⟨rfl, rfl⟩
  · have e1 : (⟨1, 0, 1, 0⟩ : RateLimiter).refill 500 = ⟨1, 0, 1, 500⟩ :=
      RateLimiter.refill_eval 1 0 1 0 500 0 0
        (by rw [Int.floor_eq_iff]; norm_num) (by omega)
    have e2 : (⟨1, 0, 1, 500⟩ : RateLimiter).refill 1000 = ⟨1, 0, 1, 1000⟩ :=
      RateLimiter.refill_eval 1 0 1 500 1000 0 0
        (by rw [Int.floor_eq_iff]; norm_num) (by omega)
    have e3 : (⟨1, 0, 1, 0⟩ : RateLimiter).refill 1000 = ⟨1, 1, 1, 1000⟩ :=
      RateLimiter.refill_eval 1 0 1 0 1000 1 1 (by norm_num) (by omega)
    rw [e1, e2, e3]
    norm_num

/-- Witness for `rateLimiter_c10_refill_discards_fraction`: 100 ms elapsed
on a bucket with capacity 10 and refill period 60 s credits
`floor(1/6) = 0` tokens. -/
theorem rateLimiter_c10_witness :
    ((⟨10, 5, 60, 0⟩ : RateLimiter).refill 100).tokens = (⟨10, 5, 60, 0⟩ : RateLimiter).tokens ∧
    ((⟨10, 5, 60, 0⟩ : RateLimiter).refill 100).lastRefill = 100 :=
  (rateLimiter_c10_refill_discards_fraction ⟨10, 5, 60, 0⟩ 100 (by norm_num)
    (by rw [Int.floor_eq_iff]; norm_num)).1

/-- C7 (confirmed): with the durable tier disabled, `set(k, v, ttl)`
followed by `get(k)` returns `v` strictly before `ttl` seconds have
elapsed and returns `none` from `ttl` seconds onwards; moreover `get`
never returns an entry at or after its expiry instant. -/
theorem cacheManager_c7_ttl_roundtrip {α : Type} (cm : CacheManager α) (k : String)
    (v : α) (ttl t tq : ℤ) (_httl : 0 < ttl) :
    (tq - t < ttl * 1000 → (cm.set k v ttl t).get k tq = some v) ∧
    (ttl * 1000 ≤ tq - t → (cm.set k v ttl t).get k tq = none) ∧
    (∀ (cm2 : CacheManager α) (k2 : String) (t2 : ℤ) (w : α),
      cm2.get k2 t2 = some w →
      ∃ e, mapGet (CacheManager.generateKey k2) cm2.memoryCache = some e ∧
        e.data = w ∧ t2 < e.expiry) := by
  have hget : ∀ t2 : ℤ, (cm.set k v ttl t).get k t2 =
      if t2 < t + ttl * 1000 then some v else none := by
    intro t2
    unfold CacheManager.get CacheManager.set CacheManager.setMemoryCache
    dsimp only
    rw [mapGet_mapSet_self]
  refine ⟨?_, ?_, ?_⟩
  · intro h
    rw [hget, if_pos (by omega)]
  · intro h
    rw [hget, if_neg (by omega)]
  · intro cm2 k2 t2 w hw
    unfold CacheManager.get at hw
    dsimp only at hw
    cases hm : mapGet (CacheManager.generateKey k2) cm2.memoryCache with
    | none => rw [hm] at hw; exact absurd hw (by simp)
    | some e =>
      rw [hm] at hw
      dsimp only at hw
      by_cases ht : t2 < e.expiry
      · rw [if_pos ht] at hw
        refine ⟨e, rfl, ?_, ht⟩
        injection hw with hw'
      · rw [if_neg ht] at hw
        exact absurd hw (by simp)

/-- Witness for `cacheManager_c7_ttl_roundtrip` on the empty cache with a
1-second TTL, observed at 500 ms and at 1000 ms. -/
theorem cacheManager_c7_witness :
    (0 : ℤ) < 1 ∧
    ((CacheManager.initState ℕ).set "aspirin" 5 1 0).get "aspirin" 500 = some 5 ∧
    ((CacheManager.initState ℕ).set "aspirin" 5 1 0).get "aspirin" 1000 = none :=
  ⟨by norm_num,
   (cacheManager_c7_ttl_roundtrip (CacheManager.initState ℕ) "aspirin" 5 1 0 500
     (by norm_num)).1 (by norm_num),
   (cacheManager_c7_ttl_roundtrip (CacheManager.initState ℕ) "aspirin" 5 1 0 1000
     (by norm_num)).2.1 (by norm_num)⟩

/-- C8 (confirmed): the in-process tier never exceeds 1000 entries for any
sequence of `set` calls from the constructor state; each `set` preserves
`size ≤ maxMemoryItems` (whenever the bound is positive); and when the
tier is full at insertion time the new map is obtained by deleting exactly
the first key of the iteration order before inserting the new entry. -/
theorem cacheManager_c8_capacity (α : Type) (ops : List (String × α × ℤ × ℤ))
    (cm : CacheManager α) (k : String) (v : α) (ttl t : ℤ) :
    ((CacheManager.initState α).execSets ops).memoryCache.length ≤ 1000 ∧
    (1 ≤ cm.maxMemoryItems → cm.memoryCache.length ≤ cm.maxMemoryItems →
      (cm.set k v ttl t).memoryCache.length ≤ cm.maxMemoryItems) ∧
    (cm.maxMemoryItems ≤ cm.memoryCache.length →
      ∀ k0 e0 rest, cm.memoryCache = (k0, e0) :: rest →
        (cm.set k v ttl t).memoryCache =
          mapSet (CacheManager.generateKey k) ⟨v, t + ttl * 1000⟩
            (mapDelete k0 cm.memoryCache)) := by
  refine ⟨?_, ?_, ?_⟩
  · have h := CacheManager.execSets_length ops (CacheManager.initState α)
      (by norm_num [CacheManager.initState]) (by simp [CacheManager.initState])
    have hm : (CacheManager.initState α).maxMemoryItems = 1000 := rfl
    omega
  · intro hmax hlen
    exact CacheManager.set_length_le cm k v ttl t hmax hlen
  · intro hfull k0 e0 rest hmc
    unfold CacheManager.set CacheManager.setMemoryCache
    dsimp only
    rw [if_pos hfull, hmc]

/-- Witness for `cacheManager_c8_capacity` at a concrete full one-slot
cache. -/
theorem cacheManager_c8_witness :
    ((CacheManager.initState ℕ).execSets [("a", 1, 1, 0)]).memoryCache.length ≤ 1000 ∧
    (({ memoryCache := [("k0", ⟨7, 10⟩)], maxMemoryItems := 1, defaultTTL := 3600 } :
        CacheManager ℕ).set "b" 2 1 0).memoryCache =
      mapSet (CacheManager.generateKey "b") ⟨2, 0 + 1 * 1000⟩
        (mapDelete "k0" [("k0", ⟨7, 10⟩)]) :=
  ⟨(cacheManager_c8_capacity ℕ [("a", 1, 1, 0)] (CacheManager.initState ℕ) "a" 1 1 0).1,
   (cacheManager_c8_capacity ℕ []
      ({ memoryCache := [("k0", ⟨7, 10⟩)], maxMemoryItems := 1, defaultTTL := 3600 } :
        CacheManager ℕ) "b" 2 1 0).2.2 (by norm_num) "k0" ⟨7, 10⟩ [] rfl⟩

set_option maxRecDepth 40000

/-- C2 counterexample: on the spec's query the drug-safety pattern
`/\b(side effect|adverse event|safety|toxicity)\b/i` does not match
(the plural "side effects" has no word boundary after "effect"), every
domain scores 0, and `decide` returns the general-medical fallback — not a
drug-safety classification with sources `[openfda, pubmed]`. -/
theorem decisionAgent_c2_counterexample :
    DecisionAgent.classifyDomain "What are the side effects of ibuprofen?" =
      { domain := none, sources := [], confidence := 0 } ∧
    DecisionAgent.decide "What are the side effects of ibuprofen?" =
      { useDocuments := false, useExternal := true, documentQuery := "",
        externalSources := ["pubmed"], intent := "general_medical", confidence := 0.6,
        reasoning := "General medical query, defaulting to literature search" } ∧
    (DecisionAgent.decide "What are the side effects of ibuprofen?").externalSources ≠
      ["openfda", "pubmed"] := by
  refine ⟨by decide, by decide, by decide⟩

/-- C2 (corrected): the claimed behaviour holds once the query carries the
pattern's phrase with an actual word boundary — for
"Is dizziness a side effect of ibuprofen?" `decide` classifies into the
drug-safety domain with sources `[openfda, pubmed]` and confidence
`0.9 × 0.4` (base confidence times the pattern score); the spec's own
plural query instead takes the fallback branch. -/
theorem decisionAgent_c2_amended :
    DecisionAgent.decide "Is dizziness a side effect of ibuprofen?" =
      { useDocuments := false, useExternal := true, documentQuery := "",
        externalSources := ["openfda", "pubmed"], intent := "drugSafety",
        confidence := 0.9 * 0.4,
        reasoning := "Classified as drugSafety query" } := by
  decide

/-- C3 counterexample: for "randomized toxicity" both the clinical-trial
and the drug-safety domain have raw score 0.4; the rule stated in the
claim (maximise `raw × base confidence`) selects drug-safety
(0.4 × 0.9 = 0.36 over 0.4 × 0.85 = 0.34), but the code selects
clinical-trial, because its fold compares raw scores only and keeps the
earlier domain on raw-score ties. -/
theorem decisionAgent_c3_counterexample :
    (DecisionAgent.checkSpecificIdentifiers "randomized toxicity").found = false ∧
    DecisionAgent.rawScore "randomized toxicity"
      ("clinicalTrial", DecisionAgent.clinicalTrialConfig) = 0.4 ∧
    DecisionAgent.rawScore "randomized toxicity"
      ("drugSafety", DecisionAgent.drugSafetyConfig) = 0.4 ∧
    DecisionAgent.specClaimSelect "randomized toxicity" = some "drugSafety" ∧
    (DecisionAgent.classifyDomain "randomized toxicity").domain = some "clinicalTrial" := by
  refine ⟨by decide, by decide, by decide, by decide, by decide⟩

/-- C3 (corrected): for every query (with no specific identifier),
`classifyDomain` selects the first domain in table order whose **raw**
score attains the maximum raw score — the base confidence plays no role in
the selection, only in the reported confidence `base × raw` — and yields
no domain unless that maximum exceeds 0.3. -/
theorem decisionAgent_c3_amended (q : String)
    (_h : (DecisionAgent.checkSpecificIdentifiers q).found = false) :
    DecisionAgent.classifyDomain q = DecisionAgent.amendedSelect q :=
  DecisionAgent.classifyDomain_eq_amendedSelect q

/-- Witness for `decisionAgent_c3_amended` at the tie query. -/
theorem decisionAgent_c3_amended_witness :
    (DecisionAgent.checkSpecificIdentifiers "randomized toxicity").found = false ∧
    DecisionAgent.classifyDomain "randomized toxicity" =
      DecisionAgent.amendedSelect "randomized toxicity" :=
  ⟨by decide, decisionAgent_c3_amended "randomized toxicity" (by decide)⟩

/-- C4 (code bug): `checkSpecificIdentifiers` never consults the `doi` and
`fda` patterns of its own pattern table, so a query consisting of a DOI
(or an FDA application number) and no trial or literature identifier does
not short-circuit with confidence 0.95: it falls through to the
general-medical fallback with confidence 0.6. -/
theorem decisionAgent_c4_doi_fda_ignored :
    reTest DecisionAgent.doiPattern "10.1000/jmed.2020".toList = true ∧
    reMatchStr DecisionAgent.nctPattern "10.1000/jmed.2020" = none ∧
    reMatchStr DecisionAgent.pmidPattern "10.1000/jmed.2020" = none ∧
    DecisionAgent.decide "10.1000/jmed.2020" =
      { useDocuments := false, useExternal := true, documentQuery := "",
        externalSources := ["pubmed"], intent := "general_medical", confidence := 0.6,
        reasoning := "General medical query, defaulting to literature search" } ∧
    reTest DecisionAgent.fdaPattern "NDA 021436 label".toList = true ∧
    DecisionAgent.decide "NDA 021436 label" =
      { useDocuments := false, useExternal := true, documentQuery := "",
        externalSources := ["pubmed"], intent := "general_medical", confidence := 0.6,
        reasoning := "General medical query, defaulting to literature search" } := by
  refine ⟨by decide, by decide, by decide, by decide, by decide, by decide⟩

/-- C5 (confirmed): every query matched by the trial-registry pattern
`/\b(NCT\d{8})\b/i` short-circuits `decide` with confidence 0.95, intent
`clinical_trial_lookup`, and sources `[clinicaltrials, pubmed]`; on the
concrete query "NCT01234567 status" the full decision is as the spec
describes. -/
theorem decisionAgent_c5_nct_shortcircuit (q : String)
    (h : (reMatchStr DecisionAgent.nctPattern q).isSome = true) :
    ((DecisionAgent.decide q).confidence = 0.95 ∧
     (DecisionAgent.decide q).intent = "clinical_trial_lookup" ∧
     (DecisionAgent.decide q).externalSources = ["clinicaltrials", "pubmed"]) ∧
    DecisionAgent.decide "NCT01234567 status" =
      { useDocuments := false, useExternal := true, documentQuery := "",
        externalSources := ["clinicaltrials", "pubmed"], intent := "clinical_trial_lookup",
        confidence := 0.95,
        reasoning := "Specific identifier detected: NCT01234567" } := by
  constructor
  · obtain ⟨m, hm⟩ := Option.isSome_iff_exists.mp h
    simp [DecisionAgent.decide, DecisionAgent.checkSpecificIdentifiers, hm]
  · decide

/-- Witness for `decisionAgent_c5_nct_shortcircuit` at the spec's query. -/
theorem decisionAgent_c5_witness :
    (reMatchStr DecisionAgent.nctPattern "NCT01234567 status").isSome = true ∧
    ((DecisionAgent.decide "NCT01234567 status").confidence = 0.95 ∧
     (DecisionAgent.decide "NCT01234567 status").intent = "clinical_trial_lookup" ∧
     (DecisionAgent.decide "NCT01234567 status").externalSources =
       ["clinicaltrials", "pubmed"]) :=
  ⟨by decide, (decisionAgent_c5_nct_shortcircuit "NCT01234567 status" (by decide)).1⟩

/-- C6 (confirmed): a query matching no specific identifier whose raw score
is at most 0.3 for every domain takes the fallback branch: intent
`general_medical`, confidence 0.6, sources exactly `[pubmed]`. -/
theorem decisionAgent_c6_fallback (q : String)
    (h1 : (DecisionAgent.checkSpecificIdentifiers q).found = false)
    (h2 : ∀ dc ∈ DecisionAgent.domains, DecisionAgent.rawScore q dc ≤ 0.3) :
    (DecisionAgent.decide q).intent = "general_medical" ∧
    (DecisionAgent.decide q).confidence = 0.6 ∧
    (DecisionAgent.decide q).externalSources = ["pubmed"] := by
  have hM : DecisionAgent.maxRawScore q ≤ 0.3 :=
    DecisionAgent.maxFrom_le q DecisionAgent.domains 0 0.3 (by norm_num) h2
  have hcd : (DecisionAgent.classifyDomain q).domain = none := by
    rw [DecisionAgent.classifyDomain_eq_amendedSelect]
    unfold DecisionAgent.amendedSelect
    rw [if_neg (not_lt.mpr hM)]
  simp [DecisionAgent.decide, h1, hcd]

/-- Witness for `decisionAgent_c6_fallback` at a query matching nothing. -/
theorem decisionAgent_c6_witness :
    (DecisionAgent.checkSpecificIdentifiers "hello world").found = false ∧
    (∀ dc ∈ DecisionAgent.domains, DecisionAgent.rawScore "hello world" dc ≤ 0.3) ∧
    ((DecisionAgent.decide "hello world").intent = "general_medical" ∧
     (DecisionAgent.decide "hello world").confidence = 0.6 ∧
     (DecisionAgent.decide "hello world").externalSources = ["pubmed"]) :=
  ⟨by decide, by decide, decisionAgent_c6_fallback "hello world" (by decide) (by decide)⟩

/-- C9 (code bug): the `/batch` route runs the single-query `validateQuery`
middleware, which rejects any body without a `query` string, so the
canonical batch body — a one-element `queries` list and no `query` field —
is rejected with "Query is required" instead of being handed to
`processBatch`; the rejection half of the claim (0 or more than 100
queries rejected before processing) does hold, and a 100-element batch is
handed over only when a valid `query` string is also present. -/
theorem batch_c9_middleware_rejects_bare_batch :
    batchEndpoint { query := QueryField.absent,
                    queries := QueriesField.arr ["aspirin dosage"] } =
      BatchResponse.badRequest "Query is required" ∧
    batchEndpoint { query := QueryField.str "aspirin dosage",
                    queries := QueriesField.arr [] } =
      BatchResponse.badRequest "Queries array is required" ∧
    batchEndpoint { query := QueryField.str "aspirin dosage",
                    queries := QueriesField.arr (List.replicate 101 "q") } =
      BatchResponse.badRequest "Maximum 100 queries per batch" ∧
    batchEndpoint { query := QueryField.str "aspirin dosage",
                    queries := QueriesField.arr (List.replicate 100 "q") } =
      BatchResponse.handedToProcessBatch (List.replicate 100 "q") := by
  refine ⟨by decide, by decide, by decide, by decide⟩
